import Mathlib

/-!
Verification of the go-crawler crawl pipeline.

This file gives a shallow embedding of the repository components that the
claims concern, and proves or refutes each claim against it:

- the `failed_urls` store (`FailedURLRepoImpl.SaveOrUpdate`, `FindRetryable`,
  `Delete` from the postgres adapter), with the exponential-backoff SQL
  translated into rational arithmetic (`random()` becomes an explicit
  jitter parameter in `[0, 1]`);
- the submission gate (`urlManagerUseCase.Submit` and `GetStatus`);
- the worker success/failure handlers (`crawlerUseCase.handleCrawlSuccess`
  and `handleCrawlFailure`);
- the two chromedp crawler variants as far as their status-code error
  classification and result-URL choice go;
- the redis visited-flag adapter (`VisitedRepoImpl`) down to the real
  SHA-256 key derivation of `utils.HashURL`.

Timestamps and durations are rationals measured in seconds.  Go machine
integers that matter only as record fields are `Int`; counters are `Nat`.
-/

namespace Crawler

/-! ### The failed_urls table

`entity.FailedURL` mirrors the table row; `nextRetryAt = none` models a SQL
NULL.  The table itself is a list of rows with `url` as the conflict key.
-/

/-- A row of the `failed_urls` table (`entity.FailedURL`). -/
structure FailedRow where
  url : String
  failureReason : String
  httpStatusCode : Int
  lastAttempt : ℚ
  retryCount : ℕ
  nextRetryAt : Option ℚ
deriving DecidableEq

/-- The caller-supplied part of a failure record, as `handleCrawlFailure`
fills it in before calling `SaveOrUpdate` (retry bookkeeping is left to the
repository). -/
structure FailedInput where
  url : String
  failureReason : String
  httpStatusCode : Int
  lastAttempt : ℚ
deriving DecidableEq

/-- `maxRetries = 5` from the postgres adapter constants. -/
def maxRetries : ℕ := 5

/-- `initialBackoff = 5 * time.Second`, in seconds. -/
def initialBackoffSec : ℚ := 5

/-- The jitter multiplier `(1 + random() * 0.4 - 0.2)` of the SQL update,
with `random()` made explicit as `r`. -/
def jitterFactor (r : ℚ) : ℚ := 1 + r * (2 / 5) - 1 / 5

/-- The backoff `($5 * pow(2, failed_urls.retry_count)) * (1 + random() * 0.4 - 0.2)`
in seconds, where `c` is the stored retry_count before the update. -/
def backoffSeconds (c : ℕ) (r : ℚ) : ℚ := initialBackoffSec * 2 ^ c * jitterFactor r

/-- Row lookup by url (the UNIQUE conflict key). -/
def findRow (st : List FailedRow) (u : String) : Option FailedRow :=
  st.find? (fun row => row.url == u)

/-- The row written by `SaveOrUpdate` for url `inp.url`: the INSERT branch
when no row existed, the ON CONFLICT DO UPDATE branch otherwise.  `now` is
the SQL `NOW()` and `r` the value drawn by `random()`. -/
def stepRow (prev : Option FailedRow) (inp : FailedInput) (now r : ℚ) : FailedRow :=
  match prev with
  | none =>
      { url := inp.url
        failureReason := inp.failureReason
        httpStatusCode := inp.httpStatusCode
        lastAttempt := inp.lastAttempt
        retryCount := 1
        nextRetryAt := some (now + initialBackoffSec) }
  | some row =>
      { url := row.url
        failureReason := inp.failureReason
        httpStatusCode := inp.httpStatusCode
        lastAttempt := inp.lastAttempt
        retryCount := row.retryCount + 1
        nextRetryAt :=
          if maxRetries ≤ row.retryCount + 1 then none
          else some (now + backoffSeconds row.retryCount r) }

/-- `FailedURLRepoImpl.SaveOrUpdate` (part_013): INSERT .. ON CONFLICT (url)
DO UPDATE, with the retry_count increment and the backoff computation done
in the database. -/
def saveOrUpdate (st : List FailedRow) (inp : FailedInput) (now r : ℚ) : List FailedRow :=
  match findRow st inp.url with
  | none => st ++ [stepRow none inp now r]
  | some _ => st.map (fun row => if row.url == inp.url then stepRow (some row) inp now r else row)

/-- `FailedURLRepoImpl.Delete`: `DELETE FROM failed_urls WHERE url = $1`,
idempotent. -/
def deleteRow (st : List FailedRow) (u : String) : List FailedRow :=
  st.filter (fun row => !(row.url == u))

/-- `k` consecutive recorded failures of the same URL, the `j`-th call
happening at time `times j` with `random()` drawing `jits j`. -/
def failTrace (st0 : List FailedRow) (inp : FailedInput) (times jits : ℕ → ℚ) : ℕ → List FailedRow
  | 0 => st0
  | k + 1 => saveOrUpdate (failTrace st0 inp times jits k) inp (times k) (jits k)

example :
    findRow (saveOrUpdate [] ⟨"u", "r", 0, 0⟩ 10 0) "u" =
      some ⟨"u", "r", 0, 0, 1, some 15⟩ := by
  norm_num [findRow, saveOrUpdate, stepRow, initialBackoffSec, List.find?]

example :
    findRow (failTrace [] ⟨"u", "r", 0, 0⟩ (fun j => (j : ℚ)) (fun _ => 1) 2) "u" =
      some ⟨"u", "r", 0, 0, 2, some 13⟩ := by
  norm_num [findRow, saveOrUpdate, stepRow, failTrace, initialBackoffSec, backoffSeconds,
    jitterFactor, maxRetries, List.find?]

lemma findRow_append_single (st : List FailedRow) (u : String) (row : FailedRow)
    (h : findRow st u = none) (hrow : row.url = u) :
    findRow (st ++ [row]) u = some row := by
  induction st with
  | nil => simp [findRow, List.find?, hrow]
  | cons a st ih =>
      unfold findRow at h ⊢
      cases ha : (a.url == u) with
      | true => simp [List.find?_cons, ha] at h
      | false =>
          simp only [List.cons_append, List.find?_cons, ha]
          exact ih (by simpa [findRow, List.find?_cons, ha] using h)

lemma findRow_map (g : FailedRow → FailedRow) (hg : ∀ row, (g row).url = row.url)
    (st : List FailedRow) (u : String) :
    findRow (st.map g) u = (findRow st u).map g := by
  induction st with
  | nil => simp [findRow]
  | cons a st ih =>
      unfold findRow at ih ⊢
      simp only [List.map_cons, List.find?_cons, hg a]
      cases ha : (a.url == u) <;> simp [ha, ih]

lemma url_stepRow (prev : Option FailedRow) (inp : FailedInput) (now r : ℚ) :
    (stepRow prev inp now r).url = match prev with | none => inp.url | some row => row.url := by
  cases prev <;> rfl

lemma findRow_saveOrUpdate (st : List FailedRow) (inp : FailedInput) (now r : ℚ) :
    findRow (saveOrUpdate st inp now r) inp.url =
      some (stepRow (findRow st inp.url) inp now r) := by
  cases hf : findRow st inp.url with
  | none =>
      unfold saveOrUpdate
      rw [hf]
      exact findRow_append_single st inp.url _ hf (by simp [stepRow])
  | some row =>
      have hrow : row.url = inp.url := by
        have hf' : List.find? (fun row : FailedRow => row.url == inp.url) st = some row := by
          simpa [findRow] using hf
        simpa using List.find?_some hf'
      unfold saveOrUpdate
      rw [hf, findRow_map, hf]
      · simp [hrow]
      · intro row'
        by_cases h' : row'.url == inp.url <;> simp [h', url_stepRow]

/-- After the `(j+1)`-th consecutive `SaveOrUpdate` for a URL that had no
row initially, the row has retry_count `j+1`, and next_retry_at is NULL
once the count reaches `maxRetries`, else `now` of that call plus the
backoff (the plain 5 s of the INSERT branch when `j = 0`). -/
lemma failTrace_find (st0 : List FailedRow) (inp : FailedInput) (times jits : ℕ → ℚ)
    (h0 : findRow st0 inp.url = none) :
    ∀ j, ∃ row, findRow (failTrace st0 inp times jits (j + 1)) inp.url = some row ∧
      row.retryCount = j + 1 ∧
      row.nextRetryAt = (if maxRetries ≤ j + 1 then none
        else some (times j + (if j = 0 then initialBackoffSec else backoffSeconds j (jits j)))) := by
  intro j
  induction j with
  | zero =>
      refine ⟨stepRow none inp (times 0) (jits 0), ?_, ?_, ?_⟩
      · have := findRow_saveOrUpdate st0 inp (times 0) (jits 0)
        rw [h0] at this
        simpa [failTrace] using this
      · rfl
      · simp [stepRow, maxRetries]
  | succ j ih =>
      obtain ⟨row, hfind, hcount, _⟩ := ih
      refine ⟨stepRow (some row) inp (times (j + 1)) (jits (j + 1)), ?_, ?_, ?_⟩
      · have := findRow_saveOrUpdate (failTrace st0 inp times jits (j + 1)) inp
          (times (j + 1)) (jits (j + 1))
        rw [hfind] at this
        simpa [failTrace] using this
      · simp [stepRow, hcount]
      · simp [stepRow, hcount]

/-- C1: for the k-th recorded failure of a URL with k in `[1, maxRetries-1]`,
the next_retry_at written by `FailedURLRepoImpl.SaveOrUpdate` lies in
`[now + 5·2^(k-1)·0.8, now + 5·2^(k-1)·1.2]`, `now` being the time of the
k-th call. -/
theorem claim1_backoff_within_jitter_interval
    (st0 : List FailedRow) (inp : FailedInput) (times jits : ℕ → ℚ) (k : ℕ)
    (h0 : findRow st0 inp.url = none) (hk1 : 1 ≤ k) (hk4 : k ≤ maxRetries - 1)
    (hj0 : 0 ≤ jits (k - 1)) (hj1 : jits (k - 1) ≤ 1) :
    ∃ row, findRow (failTrace st0 inp times jits k) inp.url = some row ∧
      row.retryCount = k ∧
      ∃ t, row.nextRetryAt = some t ∧
        times (k - 1) + initialBackoffSec * 2 ^ (k - 1) * (4 / 5) ≤ t ∧
        t ≤ times (k - 1) + initialBackoffSec * 2 ^ (k - 1) * (6 / 5) := by
  obtain ⟨j, rfl⟩ : ∃ j, k = j + 1 := ⟨k - 1, (Nat.succ_pred_eq_of_pos hk1).symm⟩
  have hj4 : j + 1 ≤ 4 := by simpa [maxRetries] using hk4
  obtain ⟨row, hfind, hcount, hnext⟩ := failTrace_find st0 inp times jits h0 j
  have hlt : ¬ maxRetries ≤ j + 1 := by omega
  rw [if_neg hlt] at hnext
  refine ⟨row, hfind, hcount, ?_⟩
  simp only [Nat.add_sub_cancel] at hj0 hj1 ⊢
  rcases Nat.eq_zero_or_pos j with hz | hp
  · subst hz
    refine ⟨times 0 + initialBackoffSec, by simpa using hnext, ?_, ?_⟩ <;>
      norm_num [initialBackoffSec]
  · have hjz : j ≠ 0 := Nat.pos_iff_ne_zero.mp hp
    rw [if_neg hjz] at hnext
    refine ⟨times j + backoffSeconds j (jits j), hnext, ?_, ?_⟩
    · have hpow : (0 : ℚ) < 2 ^ j := by positivity
      have : initialBackoffSec * 2 ^ j * (4 / 5) ≤ backoffSeconds j (jits j) := by
        unfold backoffSeconds jitterFactor initialBackoffSec
        nlinarith
      linarith
    · have hpow : (0 : ℚ) < 2 ^ j := by positivity
      have : backoffSeconds j (jits j) ≤ initialBackoffSec * 2 ^ j * (6 / 5) := by
        unfold backoffSeconds jitterFactor initialBackoffSec
        nlinarith
      linarith

/-- Witness for C1 at k = 2 from an empty table. -/
theorem claim1_backoff_within_jitter_interval_witness :
    (findRow [] "u" = none ∧ (1 : ℕ) ≤ 2 ∧ (2 : ℕ) ≤ maxRetries - 1 ∧
      (0 : ℚ) ≤ 1 / 2 ∧ (1 / 2 : ℚ) ≤ 1) ∧
    ∃ row, findRow (failTrace [] ⟨"u", "r", 0, 0⟩ (fun j => (j : ℚ)) (fun _ => 1 / 2) 2) "u" =
        some row ∧
      row.retryCount = 2 ∧
      ∃ t, row.nextRetryAt = some t ∧
        (1 : ℚ) + initialBackoffSec * 2 ^ (1 : ℕ) * (4 / 5) ≤ t ∧
        t ≤ (1 : ℚ) + initialBackoffSec * 2 ^ (1 : ℕ) * (6 / 5) := by
  refine ⟨⟨rfl, by norm_num, by norm_num [maxRetries], by norm_num, by norm_num⟩, ?_⟩
  have := claim1_backoff_within_jitter_interval [] ⟨"u", "r", 0, 0⟩
    (fun j => (j : ℚ)) (fun _ => 1 / 2) 2 rfl (by norm_num) (by norm_num [maxRetries])
    (by norm_num) (by norm_num)
  simpa using this

/-! ### Reachable states of the failed_urls store -/

/-- States of the `failed_urls` table reachable from empty via any sequence
of `SaveOrUpdate` and `Delete` calls. -/
inductive ReachableFailed : List FailedRow → Prop
  | empty : ReachableFailed []
  | save (st : List FailedRow) (inp : FailedInput) (now r : ℚ) :
      ReachableFailed st → ReachableFailed (saveOrUpdate st inp now r)
  | del (st : List FailedRow) (u : String) :
      ReachableFailed st → ReachableFailed (deleteRow st u)

/-- C2 counterexample: six consecutive `SaveOrUpdate` calls for the same URL
are a legal call sequence, and they leave a row with retry_count 6 > 5, so
the claimed invariant `retry_count ≤ MAX_RETRIES` fails. -/
theorem claim2_counterexample :
    ReachableFailed [⟨"u", "r", 0, 0, 6, none⟩] ∧
    failTrace [] ⟨"u", "r", 0, 0⟩ (fun j => (j : ℚ)) (fun _ => 0) 6 =
      [⟨"u", "r", 0, 0, 6, none⟩] ∧
    ¬ ((6 : ℕ) ≤ maxRetries) := by
  have htrace : failTrace [] ⟨"u", "r", 0, 0⟩ (fun j => (j : ℚ)) (fun _ => 0) 6 =
      [⟨"u", "r", 0, 0, 6, none⟩] := by
    norm_num [failTrace, saveOrUpdate, stepRow, findRow, List.find?, maxRetries,
      backoffSeconds, jitterFactor, initialBackoffSec]
  refine ⟨?_, htrace, by norm_num [maxRetries]⟩
  rw [← htrace]
  exact .save _ _ _ _ (.save _ _ _ _ (.save _ _ _ _ (.save _ _ _ _
    (.save _ _ _ _ (.save _ _ _ _ .empty)))))

/-- C2 (amended): in every reachable state of the failed_urls store, a row
whose retry_count has reached `maxRetries` (it may exceed it, since the
ON CONFLICT branch increments unconditionally) has next_retry_at NULL and
is permanently failed. -/
theorem claim2_amended_maxed_rows_are_null
    (st : List FailedRow) (hst : ReachableFailed st) :
    ∀ row ∈ st, maxRetries ≤ row.retryCount → row.nextRetryAt = none := by
  induction hst with
  | empty => simp
  | save st inp now r _ ih =>
      intro row hmem hcnt
      unfold saveOrUpdate at hmem
      cases hf : findRow st inp.url with
      | none =>
          rw [hf] at hmem
          rcases List.mem_append.mp hmem with hmem | hmem
          · exact ih row hmem hcnt
          · rw [List.mem_singleton.mp hmem] at hcnt
            simp [stepRow, maxRetries] at hcnt
      | some row0 =>
          rw [hf] at hmem
          obtain ⟨prev, _, hrow⟩ := List.mem_map.mp hmem
          by_cases hurl : prev.url == inp.url
          · rw [if_pos hurl] at hrow
            rw [← hrow] at hcnt ⊢
            simp only [stepRow]
            rw [if_pos (by simpa [stepRow] using hcnt)]
          · rw [if_neg hurl] at hrow
            exact hrow ▸ ih prev (by assumption) (hrow ▸ hcnt)
  | del st u _ ih =>
      intro row hmem hcnt
      exact ih row (List.mem_of_mem_filter hmem) hcnt

/-- Witness for the amended C2 on the state after five consecutive failures. -/
theorem claim2_amended_witness :
    ReachableFailed [⟨"u", "r", 0, 0, 5, none⟩] ∧
    (⟨"u", "r", 0, 0, 5, none⟩ : FailedRow) ∈ [(⟨"u", "r", 0, 0, 5, none⟩ : FailedRow)] ∧
    maxRetries ≤ 5 ∧
    (⟨"u", "r", 0, 0, 5, none⟩ : FailedRow).nextRetryAt = none := by
  have htrace : failTrace [] ⟨"u", "r", 0, 0⟩ (fun j => (j : ℚ)) (fun _ => 0) 5 =
      [⟨"u", "r", 0, 0, 5, none⟩] := by
    norm_num [failTrace, saveOrUpdate, stepRow, findRow, List.find?, maxRetries,
      backoffSeconds, jitterFactor, initialBackoffSec]
  have hreach : ReachableFailed [⟨"u", "r", 0, 0, 5, none⟩] := by
    rw [← htrace]
    exact .save _ _ _ _ (.save _ _ _ _ (.save _ _ _ _ (.save _ _ _ _ (.save _ _ _ _ .empty))))
  refine ⟨hreach, List.mem_singleton.mpr rfl, le_refl _, ?_⟩
  exact claim2_amended_maxed_rows_are_null _ hreach _ (List.mem_singleton.mpr rfl) (le_refl _)

/-! ### `utils.HashURL`: hex-encoded SHA-256

`crawl_id` and the redis deduplication keys are `sha256_hex(url)`.  The hash
is implemented over byte lists with explicit `% 2^32` wrap-around.
-/

/-- Truncation to a 32-bit word. -/
def w32 (x : ℕ) : ℕ := x % 4294967296

/-- 32-bit right rotation. -/
def rotr32 (n x : ℕ) : ℕ := w32 (Nat.lor (x >>> n) (x <<< (32 - n)))

def shaCh (x y z : ℕ) : ℕ := Nat.xor (Nat.land x y) (Nat.land (Nat.xor x 4294967295) z)

def shaMaj (x y z : ℕ) : ℕ :=
  Nat.xor (Nat.xor (Nat.land x y) (Nat.land x z)) (Nat.land y z)

def bigSigma0 (x : ℕ) : ℕ := Nat.xor (Nat.xor (rotr32 2 x) (rotr32 13 x)) (rotr32 22 x)

def bigSigma1 (x : ℕ) : ℕ := Nat.xor (Nat.xor (rotr32 6 x) (rotr32 11 x)) (rotr32 25 x)

def smallSigma0 (x : ℕ) : ℕ := Nat.xor (Nat.xor (rotr32 7 x) (rotr32 18 x)) (x >>> 3)

def smallSigma1 (x : ℕ) : ℕ := Nat.xor (Nat.xor (rotr32 17 x) (rotr32 19 x)) (x >>> 10)

/-- The 64 SHA-256 round constants, in decimal. -/
def shaK : List ℕ :=
  [1116352408, 1899447441, 3049323471, 3921009573, 961987163, 1508970993,
   2453635748, 2870763221, 3624381080, 310598401, 607225278, 1426881987,
   1925078388, 2162078206, 2614888103, 3248222580, 3835390401, 4022224774,
   264347078, 604807628, 770255983, 1249150122, 1555081692, 1996064986,
   2554220882, 2821834349, 2952996808, 3210313671, 3336571891, 3584528711,
   113926993, 338241895, 666307205, 773529912, 1294757372, 1396182291,
   1695183700, 1986661051, 2177026350, 2456956037, 2730485921, 2820302411,
   3259730800, 3345764771, 3516065817, 3600352804, 4094571909, 275423344,
   430227734, 506948616, 659060556, 883997877, 958139571, 1322822218,
   1537002063, 1747873779, 1955562222, 2024104815, 2227730452, 2361852424,
   2428436474, 2756734187, 3204031479, 3329325298]

/-- The initial SHA-256 state, in decimal. -/
def shaH0 : List ℕ :=
  [1779033703, 3144134277, 1013904242, 2773480762,
   1359893119, 2600822924, 528734635, 1541459225]

/-- `n` bytes of `v`, big endian. -/
def beBytes : ℕ → ℕ → List ℕ
  | 0, _ => []
  | k + 1, v => beBytes k (v / 256) ++ [v % 256]

/-- SHA-256 padding: append 0x80, zeros, then the 64-bit bit length. -/
def padBytes (msg : List ℕ) : List ℕ :=
  msg ++ [128] ++ List.replicate ((64 + 56 - ((msg.length + 1) % 64)) % 64) 0 ++
    beBytes 8 (8 * msg.length)

/-- Big-endian 32-bit words from bytes. -/
def bytesToWords : List ℕ → List ℕ
  | b0 :: b1 :: b2 :: b3 :: rest => (((b0 * 256 + b1) * 256 + b2) * 256 + b3) :: bytesToWords rest
  | _ => []

/-- Message-schedule extension step, run 48 times. -/
def extendLoop : List ℕ → ℕ → List ℕ
  | w, 0 => w
  | w, f + 1 =>
      extendLoop
        (w ++ [w32 (smallSigma1 (w.getD (w.length - 2) 0) + w.getD (w.length - 7) 0 +
          smallSigma0 (w.getD (w.length - 15) 0) + w.getD (w.length - 16) 0)]) f

/-- One SHA-256 round on the 8-word state. -/
def shaRound (st : List ℕ) (wi ki : ℕ) : List ℕ :=
  match st with
  | [a, b, c, d, e, f, g, h] =>
      let t1 := w32 (h + bigSigma1 e + shaCh e f g + ki + wi)
      let t2 := w32 (bigSigma0 a + shaMaj a b c)
      [w32 (t1 + t2), a, b, c, w32 (d + t1), e, f, g]
  | _ => st

/-- Compression of one 64-byte block. -/
def compressBlock (h : List ℕ) (block : List ℕ) : List ℕ :=
  let w := extendLoop (bytesToWords block) 48
  let st := (List.zip w shaK).foldl (fun st p => shaRound st p.1 p.2) h
  List.zipWith (fun x y => w32 (x + y)) h st

/-- Fold the compression over the padded message, with fuel for structural
recursion (the fuel is an upper bound on the number of blocks). -/
def sha256Blocks (h : List ℕ) (bytes : List ℕ) : ℕ → List ℕ
  | 0 => h
  | f + 1 =>
      match bytes with
      | [] => h
      | _ => sha256Blocks (compressBlock h (bytes.take 64)) (bytes.drop 64) f

/-- SHA-256 of a byte list, as eight 32-bit words. -/
def sha256 (msg : List ℕ) : List ℕ :=
  sha256Blocks shaH0 (padBytes msg) (padBytes msg).length

/-- UTF-8 encoding of one character, as Go's `[]byte(string)` produces it. -/
def charUtf8 (c : Char) : List ℕ :=
  let n := c.toNat
  if n < 128 then [n]
  else if n < 2048 then [192 + n / 64, 128 + n % 64]
  else if n < 65536 then [224 + n / 4096, 128 + (n / 64) % 64, 128 + n % 64]
  else [240 + n / 262144, 128 + (n / 4096) % 64, 128 + (n / 64) % 64, 128 + n % 64]

def utf8Bytes (s : String) : List ℕ := (s.data.map charUtf8).flatten

def hexDigit (n : ℕ) : Char := if n < 10 then Char.ofNat (48 + n) else Char.ofNat (87 + n)

/-- Lowercase hex of a 32-bit word, as `hex.EncodeToString` renders it. -/
def wordToHex (x : ℕ) : String :=
  String.mk ([28, 24, 20, 16, 12, 8, 4, 0].map (fun s => hexDigit ((x >>> s) % 16)))

/-- `utils.HashURL`: hex-encoded SHA-256 of the URL string. -/
def hashURL (s : String) : String := String.join ((sha256 (utf8Bytes s)).map wordToHex)

/-! ### The submission gate (`urlManagerUseCase.Submit`)

The gate sees the visited store through the `VisitedRepository` interface
(`IsVisited` / `MarkVisited` with an expiry / `RemoveVisited`) and the work
queue through `QueueRepository.Push` (redis LPUSH, prepend).  The visited
view is a list of `(url, ttl)` pairs as the gate submits them; failure of
the individual redis calls is injected through `SubmitFaults`, matching the
error paths of the Go code (`IsVisited` read errors are not modelled: the
store is taken as readable).
-/

/-- State the submission gate acts on: the visited flags (url with the TTL
passed to `MarkVisited`) and the work queue. -/
structure GateState where
  visited : List (String × ℚ)
  queue : List String
deriving DecidableEq

/-- `VisitedRepository.IsVisited` as the gate sees it. -/
def isVisitedFlag (st : GateState) (u : String) : Bool :=
  st.visited.any (fun p => p.1 == u)

/-- `VisitedRepository.RemoveVisited`. -/
def removeVisitedFlag (st : GateState) (u : String) : GateState :=
  { st with visited := st.visited.filter (fun p => !(p.1 == u)) }

/-- `VisitedRepository.MarkVisited` with TTL `ttl`. -/
def markVisitedFlag (st : GateState) (u : String) (ttl : ℚ) : GateState :=
  { st with visited := (u, ttl) :: st.visited.filter (fun p => !(p.1 == u)) }

/-- The TTL the flag for `u` was last marked with, if any. -/
def visitedTTL (st : GateState) (u : String) : Option ℚ :=
  (st.visited.find? (fun p => p.1 == u)).map (fun p => p.2)

/-- `deduplicationExpiry = 48 * time.Hour`, in seconds. -/
def dedupTTLSeconds : ℚ := 48 * 3600

/-- Failure injection for the redis calls `Submit` makes. -/
structure SubmitFaults where
  removeFails : Bool
  pushFails : Bool
  markFails : Bool
deriving DecidableEq

/-- The errors `Submit` can surface: `ErrURLRecentlyCrawled` (AlreadyQueued)
and a queue `Push` error (Unavailable). -/
inductive SubmitError
  | alreadyQueued
  | queueUnavailable
deriving DecidableEq

/-- Result of `Submit`: the `(crawl_id, error)` pair and the store state
after the call. -/
structure SubmitOutcome where
  crawlID : String
  err : Option SubmitError
  state : GateState
deriving DecidableEq

/-- The enqueue-then-mark tail of `Submit`: Push (LPUSH; on error return it
and stop), then best-effort `MarkVisited(url, deduplicationExpiry)` whose
failure is only logged. -/
def submitPush (st : GateState) (url : String) (f : SubmitFaults) : SubmitOutcome :=
  if f.pushFails then ⟨"", some .queueUnavailable, st⟩
  else
    let st2 : GateState := { st with queue := url :: st.queue }
    let st3 := if f.markFails then st2 else markVisitedFlag st2 url dedupTTLSeconds
    ⟨hashURL url, none, st3⟩

/-- `urlManagerUseCase.Submit` (part_011): on `force`, best-effort
`RemoveVisited`; otherwise reject with `ErrURLRecentlyCrawled` when the
flag exists; then push and mark. -/
def Submit (st : GateState) (url : String) (force : Bool) (f : SubmitFaults) : SubmitOutcome :=
  if force then
    submitPush (if f.removeFails then st else removeVisitedFlag st url) url f
  else if isVisitedFlag st url then ⟨hashURL url, some .alreadyQueued, st⟩
  else submitPush st url f

/-- C3: `Submit(url, false)` fails with AlreadyQueued exactly when the
VisitedFlag exists, leaving the whole state unchanged in that case, and
`Submit(url, true)` never fails with AlreadyQueued. -/
theorem claim3_dedup_gate (st : GateState) (url : String) (f : SubmitFaults) :
    ((Submit st url false f).err = some .alreadyQueued ↔ isVisitedFlag st url = true) ∧
    (isVisitedFlag st url = true → Submit st url false f = ⟨hashURL url, some .alreadyQueued, st⟩) ∧
    (Submit st url true f).err ≠ some .alreadyQueued := by
  refine ⟨⟨fun h => ?_, fun h => by simp [Submit, h]⟩, fun h => by simp [Submit, h], ?_⟩
  · by_cases hv : isVisitedFlag st url
    · exact hv
    · exfalso
      by_cases hp : f.pushFails <;> simp [Submit, hv, submitPush, hp] at h
  · by_cases hp : f.pushFails <;> simp [Submit, submitPush, hp]

/-- Witness for C3: a state in which "u" is flagged rejects a non-forced
resubmission without touching the store, and a forced one is not rejected. -/
theorem claim3_dedup_gate_witness :
    isVisitedFlag ⟨[("u", 1)], []⟩ "u" = true ∧
    Submit ⟨[("u", 1)], []⟩ "u" false ⟨false, false, false⟩ =
      ⟨hashURL "u", some .alreadyQueued, ⟨[("u", 1)], []⟩⟩ ∧
    (Submit ⟨[("u", 1)], []⟩ "u" true ⟨false, false, false⟩).err ≠ some .alreadyQueued := by
  refine ⟨by decide, ?_, ?_⟩
  · exact (claim3_dedup_gate ⟨[("u", 1)], []⟩ "u" ⟨false, false, false⟩).2.1 (by decide)
  · exact (claim3_dedup_gate ⟨[("u", 1)], []⟩ "u" ⟨false, false, false⟩).2.2

/-- C4 counterexample: with `force = true` the gate deletes the VisitedFlag
before pushing, so when the push then fails the visited store is NOT
unchanged — the flag for "u" is gone. -/
theorem claim4_counterexample :
    (Submit ⟨[("u", 1)], []⟩ "u" true ⟨false, true, false⟩).err = some .queueUnavailable ∧
    (Submit ⟨[("u", 1)], []⟩ "u" true ⟨false, true, false⟩).state.visited = [] ∧
    ¬ (Submit ⟨[("u", 1)], []⟩ "u" true ⟨false, true, false⟩).state = ⟨[("u", 1)], []⟩ := by
  refine ⟨rfl, rfl, ?_⟩
  intro h
  have : (Submit ⟨[("u", 1)], []⟩ "u" true ⟨false, true, false⟩).state.visited =
      [("u", 1)] := by rw [h]
  simp [Submit, submitPush, removeVisitedFlag, List.filter] at this

/-- C4 (amended): when Push fails, Submit surfaces the error and never marks
the VisitedFlag — with `force = false` the state is exactly unchanged, with
`force = true` it differs only by the best-effort pre-push RemoveVisited.
Only after a successful Push is the flag marked, with TTL 48 h, and a
failure of that marking step is not propagated. -/
theorem claim4_enqueue_before_mark (st : GateState) (url : String) (force : Bool)
    (f : SubmitFaults) :
    (f.pushFails = true → (force = true ∨ isVisitedFlag st url = false) →
      (Submit st url force f).err = some .queueUnavailable ∧
      (Submit st url force f).state =
        (if force = true ∧ f.removeFails = false then removeVisitedFlag st url else st) ∧
      (force = false → (Submit st url force f).state = st)) ∧
    (f.pushFails = false → (force = true ∨ isVisitedFlag st url = false) →
      (Submit st url force f).err = none ∧
      (Submit st url force f).crawlID = hashURL url ∧
      (f.markFails = false →
        visitedTTL (Submit st url force f).state url = some dedupTTLSeconds)) := by
  constructor
  · intro hp hcase
    cases force with
    | false =>
        have hv : isVisitedFlag st url = false := by
          rcases hcase with h | h
          · exact absurd h (by simp)
          · exact h
        refine ⟨by simp [Submit, hv, submitPush, hp], by simp [Submit, hv, submitPush, hp],
          fun _ => by simp [Submit, hv, submitPush, hp]⟩
    | true =>
        refine ⟨?_, ?_, fun h => by cases h⟩
        · cases hr : f.removeFails <;> simp [Submit, submitPush, hp, hr]
        · cases hr : f.removeFails <;> simp [Submit, submitPush, hp, hr]
  · intro hp hcase
    have hmark : ∀ st2 : GateState, f.markFails = false →
        visitedTTL (submitPush st2 url f).state url = some dedupTTLSeconds := by
      intro st2 hm
      simp [submitPush, hp, hm, visitedTTL, markVisitedFlag, List.find?_cons]
    cases force with
    | false =>
        have hv : isVisitedFlag st url = false := by
          rcases hcase with h | h
          · exact absurd h (by simp)
          · exact h
        exact ⟨by simp [Submit, hv, submitPush, hp], by simp [Submit, hv, submitPush, hp],
          fun hm => by simpa [Submit, hv] using hmark st hm⟩
    | true =>
        refine ⟨?_, ?_, fun hm => ?_⟩
        · cases hr : f.removeFails <;> simp [Submit, submitPush, hp, hr]
        · cases hr : f.removeFails <;> simp [Submit, submitPush, hp, hr]
        · cases hr : f.removeFails with
          | true => simpa [Submit, hr] using hmark st hm
          | false => simpa [Submit, hr] using hmark (removeVisitedFlag st url) hm

/-- Witness for the amended C4: a failing push from a clean store leaves it
untouched with an error, and a clean successful submit marks "u" with the
48 h TTL and returns the sha256 crawl id. -/
theorem claim4_enqueue_before_mark_witness :
    ((⟨false, true, false⟩ : SubmitFaults).pushFails = true ∧
      (false = true ∨ isVisitedFlag ⟨[], []⟩ "u" = false) ∧
      (Submit ⟨[], []⟩ "u" false ⟨false, true, false⟩).err = some .queueUnavailable ∧
      (Submit ⟨[], []⟩ "u" false ⟨false, true, false⟩).state = ⟨[], []⟩) ∧
    ((⟨false, false, false⟩ : SubmitFaults).pushFails = false ∧
      (Submit ⟨[], []⟩ "u" false ⟨false, false, false⟩).err = none ∧
      visitedTTL (Submit ⟨[], []⟩ "u" false ⟨false, false, false⟩).state "u" =
        some dedupTTLSeconds) := by
  have ha := (claim4_enqueue_before_mark ⟨[], []⟩ "u" false ⟨false, true, false⟩).1
    rfl (Or.inr (by decide))
  have hb := (claim4_enqueue_before_mark ⟨[], []⟩ "u" false ⟨false, false, false⟩).2
    rfl (Or.inr (by decide))
  exact ⟨⟨rfl, Or.inr (by decide), ha.1, ha.2.2 rfl⟩, ⟨rfl, hb.1, hb.2.2 rfl⟩⟩

/-! ### Extracted pages and the worker success handler -/

/-- `entity.ImageInfo`. -/
structure ImageInfo where
  src : String
  alt : String
  dataSrc : String
deriving DecidableEq

/-- `entity.ExtractedData`, mirroring the `extracted_data` table. -/
structure ExtractedData where
  id : Int
  url : String
  title : String
  description : String
  keywords : List String
  h1Tags : List String
  content : String
  images : List ImageInfo
  crawlTimestamp : ℚ
  httpStatusCode : Int
  responseTimeMS : Int
deriving DecidableEq

/-- The two relational stores the worker writes. -/
structure CrawlerDB where
  pages : List ExtractedData
  failed : List FailedRow
deriving DecidableEq

/-- `ExtractedDataRepoImpl.Save`: INSERT .. ON CONFLICT (url) DO UPDATE of
every column except the id. -/
def savePage (pages : List ExtractedData) (d : ExtractedData) : List ExtractedData :=
  if pages.any (fun p => p.url == d.url) then
    pages.map (fun p => if p.url == d.url then { d with id := p.id } else p)
  else pages ++ [d]

/-- `ExtractedDataRepoImpl.FindByURL`. -/
def findPage (pages : List ExtractedData) (u : String) : Option ExtractedData :=
  pages.find? (fun p => p.url == u)

/-- `crawlerUseCase.handleCrawlSuccess`: save the extracted data, then
delete any `failed_urls` row for the same URL (a failure of the delete is
only logged). -/
def handleCrawlSuccess (db : CrawlerDB) (d : ExtractedData) : CrawlerDB :=
  { pages := savePage db.pages d, failed := deleteRow db.failed d.url }

lemma find?_append_single {α : Type} (l : List α) (p : α → Bool) (a : α)
    (h : l.find? p = none) (ha : p a = true) : (l ++ [a]).find? p = some a := by
  induction l with
  | nil => simp [List.find?, ha]
  | cons b l ih =>
      cases hb : p b with
      | true => simp [List.find?_cons, hb] at h
      | false =>
          simp only [List.cons_append, List.find?_cons, hb]
          exact ih (by simpa [List.find?_cons, hb] using h)

lemma find?_map_of_key {α : Type} (g : α → α) (p : α → Bool) (hg : ∀ a, p (g a) = p a)
    (l : List α) : (l.map g).find? p = (l.find? p).map g := by
  induction l with
  | nil => simp
  | cons a l ih =>
      simp only [List.map_cons, List.find?_cons, hg a]
      cases ha : p a <;> simp [ha, ih]

lemma findRow_deleteRow (st : List FailedRow) (u : String) :
    findRow (deleteRow st u) u = none := by
  unfold findRow deleteRow
  rw [List.find?_eq_none]
  intro row hmem
  have h2 := (List.mem_filter.mp hmem).2
  simpa using h2

/-- C5: after `handleCrawlSuccess` runs for a successfully crawled page, the
extracted_data store holds that page under its URL (the stored id aside)
and the failed_urls store has no row for that URL. -/
theorem claim5_success_saves_page_and_clears_failure (db : CrawlerDB) (d : ExtractedData) :
    (∃ i, findPage (handleCrawlSuccess db d).pages d.url = some { d with id := i }) ∧
    findRow (handleCrawlSuccess db d).failed d.url = none := by
  refine ⟨?_, findRow_deleteRow db.failed d.url⟩
  show ∃ i, findPage (savePage db.pages d) d.url = some { d with id := i }
  unfold savePage findPage
  cases hany : db.pages.any (fun p => p.url == d.url) with
  | false =>
      rw [if_neg (by simp [hany])]
      refine ⟨d.id, ?_⟩
      have hnone : db.pages.find? (fun p => p.url == d.url) = none := by
        rw [List.find?_eq_none]
        intro p hp
        have := List.any_eq_false.mp hany p hp
        simpa using this
      simpa using find?_append_single db.pages _ d hnone (by simp)
  | true =>
      rw [if_pos (by simp [hany])]
      obtain ⟨p0, hp0mem, hp0⟩ := List.any_eq_true.mp hany
      have hfind : ∃ q, db.pages.find? (fun p => p.url == d.url) = some q := by
        rcases hq : db.pages.find? (fun p => p.url == d.url) with _ | q
        · rw [List.find?_eq_none] at hq
          exact absurd hp0 (by simpa using hq p0 hp0mem)
        · exact ⟨q, hq⟩
      obtain ⟨q, hq⟩ := hfind
      have hqurl : q.url = d.url := by simpa using List.find?_some hq
      refine ⟨q.id, ?_⟩
      rw [find?_map_of_key]
      · rw [hq]
        simp [hqurl]
      · intro a
        by_cases ha : a.url == d.url <;> simp [ha]

/-! ### Crawl error taxonomy and the two chromedp variants

Go errors are modelled as a message plus the sentinel they wrap through
`%w` (if any); `errors.Is(err, sentinel)` is a match on that field.  Both
crawler variants in the tree are embedded: the status-code handling of
`crawler_impl.go` and of the unnamed variant (part_016), together with the
`ExtractedData` each builds on success.
-/

/-- The four sentinel errors of the repository package. -/
inductive CrawlSentinel
  | crawlTimeout
  | navigationFailed
  | extractionFailed
  | contentRestricted
deriving DecidableEq

/-- The `errors.New` text of each sentinel. -/
def sentinelText : CrawlSentinel → String
  | .crawlTimeout => "crawl operation timed out"
  | .navigationFailed => "navigation to URL failed"
  | .extractionFailed => "data extraction failed"
  | .contentRestricted => "content is restricted or requires authentication"

/-- A Go error value: the sentinel wrapped via `%w`, if any, and the full
`Error()` message. -/
structure GoError where
  wrapped : Option CrawlSentinel
  message : String
deriving DecidableEq

/-- `crawler_impl.go` main-document status handling (lines 232-240): 4xx and
5xx produce plain `fmt.Errorf` string errors that wrap no sentinel. -/
def crawlImplStatusError (statusCode : Int) (rawURL : String) : Option GoError :=
  if 400 ≤ statusCode ∧ statusCode < 500 then
    some ⟨none, "client error " ++ toString statusCode ++ " for URL " ++ rawURL⟩
  else if 500 ≤ statusCode then
    some ⟨none, "server error " ++ toString statusCode ++ " for URL " ++ rawURL⟩
  else none

/-- The unnamed chromedp variant (part_016, lines 262-267): 4xx wraps
`ErrContentRestricted`, 5xx wraps `ErrNavigationFailed`, both with the
`": received status code %d"` suffix. -/
def chromedpStatusError (statusCode : Int) : Option GoError :=
  if 400 ≤ statusCode ∧ statusCode < 500 then
    some ⟨some .contentRestricted,
      sentinelText .contentRestricted ++ ": received status code " ++ toString statusCode⟩
  else if 500 ≤ statusCode then
    some ⟨some .navigationFailed,
      sentinelText .navigationFailed ++ ": received status code " ++ toString statusCode⟩
  else none

/-- The literal format string `handleCrawlFailure` gives to `fmt.Sscanf`
up to the `%d` verb. -/
def restrictedScanFormat : String :=
  "content is restricted or requires authentication: received status code "

/-- A run of decimal digits read as a number, as the `%d` verb consumes
the rest of the message. -/
def digitsToNat? (cs : List Char) : Option ℕ :=
  if cs ≠ [] ∧ cs.all (fun c => decide (48 ≤ c.toNat ∧ c.toNat ≤ 57)) then
    some (cs.foldl (fun acc c => acc * 10 + (c.toNat - 48)) 0)
  else none

/-- The `fmt.Sscanf(crawlErr.Error(), "... status code %d", &httpStatusCode)`
of `handleCrawlFailure`: the parsed status, or 0 (the Go zero value) when the
message does not match the format. -/
def parseRestrictedStatus (msg : String) : Int :=
  if msg.data.take restrictedScanFormat.data.length = restrictedScanFormat.data then
    (((digitsToNat? (msg.data.drop restrictedScanFormat.data.length))).getD 0 : ℕ)
  else 0

/-- The error-type / http-status classification switch of
`crawlerUseCase.handleCrawlFailure` (lines 105-128). -/
def classifyFailure (e : GoError) : String × Int :=
  match e.wrapped with
  | some .crawlTimeout => ("timeout", 0)
  | some .navigationFailed => ("navigation", 0)
  | some .extractionFailed => ("extraction", 0)
  | some .contentRestricted => ("restricted", parseRestrictedStatus e.message)
  | none => ("unknown", 0)

/-- The `entity.FailedURL` record `handleCrawlFailure` hands to
`SaveOrUpdate` (retry fields left to the repository). -/
def handleCrawlFailureInput (u : String) (e : GoError) (now : ℚ) : FailedInput :=
  ⟨u, e.message, (classifyFailure e).2, now⟩

set_option maxRecDepth 8000 in
/-- C6 evaluation: at main-document status 403 the named `crawler_impl.go`
returns a plain string error wrapping no sentinel, which the failure
handler classifies as "unknown" with http_status 0; the part_016 variant
returns the distinct `ErrContentRestricted` wrap whose message parses back
to 403, as the claim describes. -/
theorem claim6_code_eval :
    crawlImplStatusError 403 "https://a.test/" =
      some ⟨none, "client error 403 for URL https://a.test/"⟩ ∧
    classifyFailure ⟨none, "client error 403 for URL https://a.test/"⟩ = ("unknown", 0) ∧
    chromedpStatusError 403 =
      some ⟨some .contentRestricted,
        "content is restricted or requires authentication: received status code 403"⟩ ∧
    classifyFailure ⟨some .contentRestricted,
      "content is restricted or requires authentication: received status code 403"⟩ =
      ("restricted", 403) := by
  refine ⟨?_, rfl, ?_, ?_⟩ <;> decide

/-- The `entity.ExtractedData` literal built by `crawler_impl.go` on success
(lines 255-266): the URL field is `finalURL`, the browser location after
redirects; Images is left empty and CrawlTimestamp unset. -/
def crawlImplResult (rawURL finalURL title description content : String)
    (keywords h1s : List String) (statusCode : Int) (responseTime : Int) : ExtractedData :=
  ⟨0, finalURL, title, description, keywords, h1s, content, [], 0, statusCode, responseTime⟩

/-- The `entity.ExtractedData` literal built by the part_016 variant
(lines 271-280): the URL field is `rawURL`, the originally submitted URL. -/
def chromedpResult (rawURL finalURL title description content : String)
    (keywords h1s : List String) (images : List ImageInfo) (now : ℚ)
    (statusCode : Int) (responseTimeMS : Int) : ExtractedData :=
  ⟨0, rawURL, title, description, keywords, h1s, content, images, now, statusCode, responseTimeMS⟩

/-- C7 evaluation: on a crawl submitted as `http://a.test/` that redirects
to `https://b.test/home`, the named `crawler_impl.go` stores the final URL,
not the submitted one, while the part_016 variant stores the submitted URL
as the claim mandates. -/
theorem claim7_code_eval :
    (crawlImplResult "http://a.test/" "https://b.test/home" "t" "d" "c" [] [] 200 5).url =
      "https://b.test/home" ∧
    ¬ (crawlImplResult "http://a.test/" "https://b.test/home" "t" "d" "c" [] [] 200 5).url =
      "http://a.test/" ∧
    (chromedpResult "http://a.test/" "https://b.test/home" "t" "d" "c" [] [] [] 0 200 5).url =
      "http://a.test/" := by
  refine ⟨rfl, by decide, rfl⟩

/-! ### Status lookup (`urlManagerUseCase.GetStatus`) -/

/-- `entity.CrawlStatus`. -/
structure CrawlStatus where
  url : String
  currentStatus : String
  lastCrawlTimestamp : Option ℚ
  nextRetryAt : Option ℚ
  failureReason : String
deriving DecidableEq

/-- Modelled from the spec: `FindByURL` on the failed-URL repository.  The
implementation is missing from the tree (the repository interface lacks the
method; only the `GetStatus` caller references it); the spec's
`FindFailure(url) — returns FailedURL or NotFound` is a lookup by the
unique url key.  A NULL `next_retry_at` scans into the Go zero time, which
the embedding renders as `Option.getD 0` at the use site. -/
def findFailureByURL (st : List FailedRow) (u : String) : Option FailedRow :=
  findRow st u

/-- `urlManagerUseCase.GetStatus` (part_010): extracted_data first, then
failed_urls, then the VisitedFlag; a failed row reads as "retrying" exactly
when its next_retry_at lies strictly in the future. -/
def getStatus (db : CrawlerDB) (gate : GateState) (now : ℚ) (u : String) : CrawlStatus :=
  match findPage db.pages u with
  | some d => ⟨u, "completed", some d.crawlTimestamp, none, ""⟩
  | none =>
      match findFailureByURL db.failed u with
      | some fu =>
          let nrv := fu.nextRetryAt.getD 0
          ⟨u, if now < nrv then "retrying" else "failed", none, some nrv, fu.failureReason⟩
      | none =>
          if isVisitedFlag gate u then ⟨u, "pending", none, none, ""⟩
          else ⟨u, "not_found", none, none, ""⟩

/-- C8: `GetStatus` consults extracted_data, then failed_urls, then the
VisitedFlag, returning the first matching derived status: completed for a
page row, retrying/failed by the failed row's next_retry_at, pending for a
bare VisitedFlag, and not_found otherwise. -/
theorem claim8_status_priority (db : CrawlerDB) (gate : GateState) (now : ℚ) (u : String) :
    (∀ d, findPage db.pages u = some d →
      getStatus db gate now u = ⟨u, "completed", some d.crawlTimestamp, none, ""⟩) ∧
    (findPage db.pages u = none → ∀ fu, findFailureByURL db.failed u = some fu →
      getStatus db gate now u =
        ⟨u, if now < fu.nextRetryAt.getD 0 then "retrying" else "failed", none,
          some (fu.nextRetryAt.getD 0), fu.failureReason⟩) ∧
    (findPage db.pages u = none → findFailureByURL db.failed u = none →
      isVisitedFlag gate u = true → getStatus db gate now u = ⟨u, "pending", none, none, ""⟩) ∧
    (findPage db.pages u = none → findFailureByURL db.failed u = none →
      isVisitedFlag gate u = false →
      getStatus db gate now u = ⟨u, "not_found", none, none, ""⟩) := by
  refine ⟨fun d hd => ?_, fun hp fu hf => ?_, fun hp hf hv => ?_, fun hp hf hv => ?_⟩ <;>
    simp [getStatus, *]

/-- Witness for C8: a store holding only a failed row for "u" due at 100
reports "retrying" at time 50. -/
theorem claim8_status_priority_witness :
    (findPage ([] : List ExtractedData) "u" = none ∧
      findFailureByURL [⟨"u", "boom", 0, 0, 1, some 100⟩] "u" =
        some ⟨"u", "boom", 0, 0, 1, some 100⟩) ∧
    getStatus ⟨[], [⟨"u", "boom", 0, 0, 1, some 100⟩]⟩ ⟨[], []⟩ 50 "u" =
      ⟨"u", "retrying", none, some 100, "boom"⟩ := by
  refine ⟨⟨rfl, rfl⟩, ?_⟩
  have h := (claim8_status_priority ⟨[], [⟨"u", "boom", 0, 0, 1, some 100⟩]⟩ ⟨[], []⟩ 50 "u").2.1
    rfl ⟨"u", "boom", 0, 0, 1, some 100⟩ rfl
  rw [h]
  norm_num

/-! ### The retry sweeper query (`FailedURLRepoImpl.FindRetryable`) -/

/-- The sort key of `ORDER BY next_retry_at` (only non-NULL rows are
sorted, so the default for NULL never matters). -/
def retryKey (row : FailedRow) : ℚ := row.nextRetryAt.getD 0

/-- Row order by next_retry_at ascending. -/
def rowLE : FailedRow → FailedRow → Prop := fun a b => retryKey a ≤ retryKey b

instance : DecidableRel rowLE := fun a b => inferInstanceAs (Decidable (retryKey a ≤ retryKey b))

instance : IsTotal FailedRow rowLE := ⟨fun a b => le_total (retryKey a) (retryKey b)⟩

instance : IsTrans FailedRow rowLE := ⟨fun _ _ _ hab hbc => le_trans hab hbc⟩

/-- `FailedURLRepoImpl.FindRetryable` (part_013): rows with
`next_retry_at IS NOT NULL AND next_retry_at <= NOW()`, ordered by
next_retry_at ascending, at most `limit` of them. -/
def findRetryable (st : List FailedRow) (now : ℚ) (limit : ℕ) : List FailedRow :=
  (List.insertionSort rowLE (st.filter (fun row =>
    match row.nextRetryAt with
    | none => false
    | some t => decide (t ≤ now)))).take limit

/-- C9: every row `FindRetryable` returns is due (non-NULL next_retry_at
at most `now`), the result is ascending in next_retry_at with at most
`limit` rows, and a permanently failed row (NULL next_retry_at) is never
returned. -/
theorem claim9_retryable_excludes_permanent (st : List FailedRow) (now : ℚ) (limit : ℕ) :
    (∀ row ∈ findRetryable st now limit, ∃ t, row.nextRetryAt = some t ∧ t ≤ now) ∧
    List.Sorted rowLE (findRetryable st now limit) ∧
    (findRetryable st now limit).length ≤ limit ∧
    (∀ row, row.nextRetryAt = none → row ∉ findRetryable st now limit) := by
  have hdue : ∀ row ∈ findRetryable st now limit, ∃ t, row.nextRetryAt = some t ∧ t ≤ now := by
    intro row hmem
    have hmem2 : row ∈ List.insertionSort rowLE (st.filter (fun row =>
        match row.nextRetryAt with
        | none => false
        | some t => decide (t ≤ now))) := List.take_subset _ _ hmem
    have hmem3 := (List.mem_insertionSort rowLE).mp hmem2
    have hpred := (List.mem_filter.mp hmem3).2
    rcases hn : row.nextRetryAt with _ | t
    · rw [hn] at hpred
      simp at hpred
    · rw [hn] at hpred
      exact ⟨t, rfl, of_decide_eq_true hpred⟩
  refine ⟨hdue, ?_, ?_, ?_⟩
  · exact List.Pairwise.sublist (List.take_sublist _ _) (List.sorted_insertionSort rowLE _)
  · simpa [findRetryable] using List.length_take_le limit _
  · intro row hnone hmem
    obtain ⟨t, ht, _⟩ := hdue row hmem
    rw [hnone] at ht
    cases ht

/-- Witness for C9 on a three-row table: the NULL row is excluded and the
two due rows come back ascending. -/
theorem claim9_retryable_excludes_permanent_witness :
    findRetryable [⟨"a", "r", 0, 0, 1, some 3⟩, ⟨"b", "r", 0, 0, 5, none⟩,
        ⟨"c", "r", 0, 0, 2, some 1⟩] 10 5 =
      [⟨"c", "r", 0, 0, 2, some 1⟩, ⟨"a", "r", 0, 0, 1, some 3⟩] ∧
    (⟨"a", "r", 0, 0, 1, some 3⟩ : FailedRow) ∈ findRetryable [⟨"a", "r", 0, 0, 1, some 3⟩,
        ⟨"b", "r", 0, 0, 5, none⟩, ⟨"c", "r", 0, 0, 2, some 1⟩] 10 5 ∧
    (∃ t, (⟨"a", "r", 0, 0, 1, some 3⟩ : FailedRow).nextRetryAt = some t ∧ t ≤ 10) ∧
    ((⟨"b", "r", 0, 0, 5, none⟩ : FailedRow).nextRetryAt = none ∧
      (⟨"b", "r", 0, 0, 5, none⟩ : FailedRow) ∉ findRetryable [⟨"a", "r", 0, 0, 1, some 3⟩,
        ⟨"b", "r", 0, 0, 5, none⟩, ⟨"c", "r", 0, 0, 2, some 1⟩] 10 5) := by
  have hc := claim9_retryable_excludes_permanent [⟨"a", "r", 0, 0, 1, some 3⟩,
    ⟨"b", "r", 0, 0, 5, none⟩, ⟨"c", "r", 0, 0, 2, some 1⟩] 10 5
  refine ⟨by decide, by decide, ?_, rfl, ?_⟩
  · exact hc.1 ⟨"a", "r", 0, 0, 1, some 3⟩ (by decide)
  · exact hc.2.2.2 ⟨"b", "r", 0, 0, 5, none⟩ rfl

/-! ### The redis visited adapter (`VisitedRepoImpl`)

The store is the key space of redis: keys with an absolute expiry instant,
set by SETEX, probed by EXISTS, removed by DEL.  All three operations go
through `generateKey`, i.e. the `visited:` namespace over the sha256-hex of
the URL.
-/

/-- `VisitedRepoImpl.generateKey`: `visited:<sha256_hex(url)>`. -/
def visitedKeyOf (url : String) : String := "visited:" ++ hashURL url

/-- The redis key space: key with its absolute expiry instant. -/
structure RedisStore where
  entries : List (String × ℚ)
deriving DecidableEq

/-- `SETEX key "1" expiry` — atomically (re)sets the key with its expiry. -/
def redisSetEx (st : RedisStore) (key : String) (expiresAt : ℚ) : RedisStore :=
  ⟨(key, expiresAt) :: st.entries.filter (fun p => !(p.1 == key))⟩

/-- `EXISTS key` at instant `now`: present and not yet expired. -/
def redisExists (st : RedisStore) (key : String) (now : ℚ) : Bool :=
  st.entries.any (fun p => p.1 == key && decide (now < p.2))

/-- `DEL key`. -/
def redisDel (st : RedisStore) (key : String) : RedisStore :=
  ⟨st.entries.filter (fun p => !(p.1 == key))⟩

/-- `VisitedRepoImpl.MarkVisited`. -/
def markVisitedImpl (st : RedisStore) (url : String) (expiry now : ℚ) : RedisStore :=
  redisSetEx st (visitedKeyOf url) (now + expiry)

/-- `VisitedRepoImpl.IsVisited`. -/
def isVisitedImpl (st : RedisStore) (url : String) (now : ℚ) : Bool :=
  redisExists st (visitedKeyOf url) now

/-- `VisitedRepoImpl.RemoveVisited`. -/
def removeVisitedImpl (st : RedisStore) (url : String) : RedisStore :=
  redisDel st (visitedKeyOf url)

/-- C10: the three visited operations agree on the derived cache key, so
marking a URL makes it visited until the TTL expires, removing it makes it
not visited, and removing a URL whose key is absent leaves the store
untouched. -/
theorem claim10_visited_round_trip (st : RedisStore) (url : String) (expiry now t : ℚ) :
    (t < now + expiry → isVisitedImpl (markVisitedImpl st url expiry now) url t = true) ∧
    isVisitedImpl (removeVisitedImpl st url) url t = false ∧
    ((∀ e ∈ st.entries, ¬ e.1 = visitedKeyOf url) → removeVisitedImpl st url = st) := by
  refine ⟨fun ht => ?_, ?_, fun hnone => ?_⟩
  · simp [isVisitedImpl, markVisitedImpl, redisSetEx, redisExists, List.any_cons, ht]
  · simp only [isVisitedImpl, removeVisitedImpl, redisDel, redisExists]
    apply List.any_eq_false.mpr
    intro p hp
    have hkey := (List.mem_filter.mp hp).2
    simp only [Bool.not_eq_true'] at hkey
    simp [hkey]
  · cases st with
    | mk entries =>
        simp only [removeVisitedImpl, redisDel, RedisStore.mk.injEq]
        rw [List.filter_eq_self]
        intro e he
        simpa using hnone e he

/-- Witness for C10 on an empty store and `https://example.com`. -/
theorem claim10_visited_round_trip_witness :
    ((3 : ℚ) < 0 + 10 ∧
      isVisitedImpl (markVisitedImpl ⟨[]⟩ "https://example.com" 10 0) "https://example.com" 3 =
        true) ∧
    isVisitedImpl (removeVisitedImpl ⟨[]⟩ "https://example.com") "https://example.com" 3 =
      false ∧
    ((∀ e ∈ ([] : List (String × ℚ)), ¬ e.1 = visitedKeyOf "https://example.com") ∧
      removeVisitedImpl ⟨[]⟩ "https://example.com" = ⟨[]⟩) := by
  have hc := claim10_visited_round_trip ⟨[]⟩ "https://example.com" 10 0 3
  exact ⟨⟨by norm_num, hc.1 (by norm_num)⟩, hc.2.1, by simp, hc.2.2 (by simp)⟩

end Crawler
